import Mathlib

/-!
Shallow embedding of the `ndle-cloudflare-fileproxy` Cloudflare Worker core:
HTTP Range parsing (`parseRangeHeader`), tenant-scoped cache-key derivation
(`buildCacheKey`), resource-key security validation (`validateFileKey`,
`validateFileAccess`), CORS policy (`isOriginAllowed`, `getCorsHeaders`),
response assembly (`buildR2Response`, `buildHeadResponse`,
`buildCachedResponse`) and the request orchestrator (`fetchModel`, from the
second, operative `export default` in `src/index.ts`).

JavaScript platform primitives used by the source (regular-expression search,
`String.prototype.includes` / `startsWith` / `trim`, `URL` with
`URLSearchParams.set`, the Cache API keyed by `Request` values, R2 bucket
bindings, `decodeURIComponent`) are modelled explicitly as Lean functions or
as oracles in the worker environment.
-/

namespace FileProxy

/-- Model of `String.prototype.startsWith` on character lists and of matching
a literal inside a regular expression: `startsWithList pat l` is true iff
`pat` is an initial segment of `l`. -/
def startsWithList : List Char → List Char → Bool
  | [], _ => true
  | _ :: _, [] => false
  | a :: ps, c :: cs => a == c && startsWithList ps cs

/-- Model of `String.prototype.includes` on character lists: does `pat` occur
as a contiguous substring of `l`? -/
def containsSub (pat : List Char) : List Char → Bool
  | [] => startsWithList pat []
  | c :: rest => startsWithList pat (c :: rest) || containsSub pat rest

/-- Model of the whitespace class stripped by `String.prototype.trim`. -/
def isJsSpace (c : Char) : Bool := c.isWhitespace

/-- Model of `String.prototype.trim`: strip leading and trailing whitespace. -/
def jsTrim (l : List Char) : List Char :=
  ((l.dropWhile isJsSpace).reverse.dropWhile isJsSpace).reverse

/-- The exact mathematical value of a list of decimal digits (the number the
header text denotes, before any floating-point rounding). -/
def parseDigits (l : List Char) : Nat :=
  l.foldl (fun a c => 10 * a + (c.toNat - 48)) 0

/-- Fuel-driven search for the IEEE-754 scale of an integer: the smallest
`e` with `n / 2 ^ e < 2 ^ 53`, found by repeated halving.  The fuel bound
covers every magnitude below (and far beyond) the double overflow
threshold. -/
def expGo : Nat → Nat → Nat → Nat
  | _, e, 0 => e
  | m, e, fuel + 1 => if m < 2 ^ 53 then e else expGo (m / 2) (e + 1) fuel

/-- Round a non-negative integer to the nearest IEEE-754 double
(binary64), ties to even — the value JavaScript number conversion produces
for an exact integer.  Integers up to `2 ^ 53` are exact; larger ones are
rounded to the nearest multiple of `2 ^ e` where `n / 2 ^ e` has 53 bits.
The model covers finite doubles; inputs beyond the double overflow
threshold (about `1.8e308`, where JavaScript yields `Infinity`) are outside
its scope and outside every theorem below. -/
def roundDouble (n : Nat) : Nat :=
  let e := expGo n 0 2048
  let step := 2 ^ e
  let q := n / step
  let r := n % step
  if 2 * r < step then q * step
  else if step < 2 * r then (q + 1) * step
  else if q % 2 = 0 then q * step else (q + 1) * step

/-- `roundDouble` extended to signed values (doubles are sign-symmetric). -/
def intRoundDouble (i : Int) : Int :=
  if i < 0 then -((roundDouble i.natAbs : Nat) : Int)
  else ((roundDouble i.natAbs : Nat) : Int)

/-- Model of JavaScript `parseInt(s, 10)` on a list of decimal digits: the
exact value of the digits, rounded to the nearest IEEE-754 double — above
`2 ^ 53` this loses precision (`parseInt` of `9007199254740993` is
`9007199254740992`). -/
def jsParseInt (l : List Char) : Nat :=
  roundDouble (parseDigits l)

/-- `MAX_RANGE_SIZE_BYTES` from src/config.ts (50 MB). -/
def MAX_RANGE_SIZE_BYTES : Nat := 50 * 1024 * 1024

/-- `MAX_SUFFIX_SIZE_BYTES` from src/config.ts (10 MB). -/
def MAX_SUFFIX_SIZE_BYTES : Nat := 10 * 1024 * 1024

/-- `CACHE_MAX_AGE_SECONDS` from src/config.ts. -/
def CACHE_MAX_AGE_SECONDS : Nat := 5

/-- The R2 range shapes produced by the parser (`R2Range` in the Workers
types): bounded `{offset, length}`, open-ended `{offset}`, or suffix
`{suffix}`. -/
inductive R2Range where
  | bounded (offset length : Nat)
  | openEnded (offset : Nat)
  | suffix (n : Nat)
deriving DecidableEq, Repr

/-- The distinct validation-error messages `parseRangeHeader` can return;
the source carries them as strings, modelled here as tags (the
`rangeTooLarge` and `suffixTooLarge` messages interpolate the offending
size, kept as a payload). -/
inductive RangeError where
  | negativeOffset
  | endBeforeStart
  | rangeTooLarge (length : Int)
  | suffixTooLarge (n : Nat)
deriving DecidableEq, Repr

/-- `ParsedRange` from src/types.ts: an optional range and an optional
validation error. -/
structure ParsedRange where
  range : Option R2Range
  error : Option RangeError := none
deriving DecidableEq, Repr

/-- One attempt of the JavaScript regex `/bytes=(\d*)-(\d*)/` at the head of
the input: the literal `bytes=`, a greedy run of digits (group 1), a literal
hyphen, a greedy run of digits (group 2). -/
def bytesMatchAt : List Char → Option (List Char × List Char)
  | 'b' :: 'y' :: 't' :: 'e' :: 's' :: '=' :: l1 =>
    let g1 := l1.takeWhile Char.isDigit
    match l1.dropWhile Char.isDigit with
    | c :: l2 => if c = '-' then some (g1, l2.takeWhile Char.isDigit) else none
    | [] => none
  | _ => none

/-- The JavaScript regex engine scans left to right for the first position
where `/bytes=(\d*)-(\d*)/` matches (`String.prototype.match` without
anchors). -/
def bytesSearch : List Char → Option (List Char × List Char)
  | [] => none
  | c :: rest =>
    match bytesMatchAt (c :: rest) with
    | some r => some r
    | none => bytesSearch rest

/-- `parseRangeHeader` from src/range.ts.  A `none` or empty header is falsy
in JavaScript and yields no range; a header where the regex finds no match
yields no range and no error; otherwise the captured groups are converted
with `parseInt` (an empty capture is falsy, hence `undefined`) and
validated.  `parseInt` and the `end - start + 1` arithmetic work on IEEE-754
doubles, so each parse and each arithmetic step is rounded with
`roundDouble` / `intRoundDouble`. -/
def parseRangeHeader (rangeHeader : Option String) : ParsedRange :=
  match rangeHeader with
  | none => { range := none }
  | some h =>
    if h.data = [] then { range := none }
    else
      match bytesSearch h.data with
      | none => { range := none }
      | some (g1, g2) =>
        let startVal : Option Nat := if g1 = [] then none else some (jsParseInt g1)
        let endVal : Option Nat := if g2 = [] then none else some (jsParseInt g2)
        if (match startVal with
            | some s => decide ((s : Int) < 0)
            | none => false) then
          { range := none, error := some RangeError.negativeOffset }
        else
          match startVal, endVal with
          | some s, some e =>
            let len : Int := intRoundDouble (intRoundDouble ((e : Int) - (s : Int)) + 1)
            if len ≤ 0 then
              { range := none, error := some RangeError.endBeforeStart }
            else if (MAX_RANGE_SIZE_BYTES : Int) < len then
              { range := none, error := some (RangeError.rangeTooLarge len) }
            else
              { range := some (R2Range.bounded s len.toNat), error := none }
          | some s, none => { range := some (R2Range.openEnded s), error := none }
          | none, some e =>
            if MAX_SUFFIX_SIZE_BYTES < e then
              { range := none, error := some (RangeError.suffixTooLarge e) }
            else
              { range := some (R2Range.suffix e), error := none }
          | none, none => { range := none }

/-- `buildContentRangeHeader` from src/range.ts: only a range carrying both a
numeric offset and a numeric length produces a `Content-Range` value. -/
def buildContentRangeHeader (r : Option R2Range) (totalSize : Nat) : Option String :=
  match r with
  | some (R2Range.bounded o l) =>
    some ("bytes " ++ toString o ++ "-" ++ toString (o + l - 1) ++ "/" ++ toString totalSize)
  | _ => none

/-- Model of a parsed platform `URL` value: everything before the query
string, plus the decoded query parameters in order.  The platform serializer
is injective on this data, so `Request` cache keys compare like this
structure. -/
structure URLModel where
  host : String
  pathname : String
  params : List (String × String)
deriving DecidableEq, Repr

/-- Model of `URLSearchParams.delete` restricted to one name: drop every
pair carrying that name (used by the `set` model below). -/
def removeParam : List (String × String) → String → List (String × String)
  | [], _ => []
  | (k, w) :: rest, name =>
    if k = name then removeParam rest name else (k, w) :: removeParam rest name

/-- Model of `URLSearchParams.set`: if a pair with the name exists, replace
the value of the first such pair and remove the others; otherwise append the
pair at the end. -/
def setParam : List (String × String) → String → String → List (String × String)
  | [], name, value => [(name, value)]
  | (k, w) :: rest, name, value =>
    if k = name then (name, value) :: removeParam rest name
    else (k, w) :: setParam rest name value

/-- Model of `URLSearchParams.get`: the value of the first pair with the
name, if any. -/
def getParam : List (String × String) → String → Option String
  | [], _ => none
  | (k, v) :: rest, name => if k = name then some v else getParam rest name

/-- A cache key as built by `buildCacheKey`: a `Request` value, determined by
its URL, its method and its header set (here only the `Range` header is ever
set). -/
structure CacheKey where
  url : URLModel
  method : String
  rangeHeader : Option String
deriving DecidableEq, Repr

/-- `buildCacheKey` from src/cache.ts: set the reserved `_uid` query
parameter to the server-side user id on the request URL, and build a GET
`Request` whose headers carry the raw range text when it is truthy (a
`none` or empty range sets no header). -/
def buildCacheKey (requestUrl : URLModel) (userId : String) (range : Option String) : CacheKey :=
  { url := { requestUrl with params := setParam requestUrl.params "_uid" userId }
    method := "GET"
    rangeHeader :=
      match range with
      | some r => if r = "" then none else some r
      | none => none }

/-- The distinct error messages `validateFileKey` can return, as tags. -/
inductive KeyError where
  | emptyKey
  | pathTraversalDots
  | absolutePath
  | nullByte
  | badPathPrefix
  | missingUserId
deriving DecidableEq, Repr

/-- `validateFileKey` from src/security.ts: reject empty or blank keys, keys
containing `..`, absolute paths, null bytes, keys outside the `analytics/`
namespace, and keys without a `user_id=` marker. -/
def validateFileKey (fileKey : String) : Option KeyError :=
  if fileKey.data = [] ∨ jsTrim fileKey.data = [] then some KeyError.emptyKey
  else if containsSub "..".data fileKey.data then some KeyError.pathTraversalDots
  else if startsWithList "/".data fileKey.data then some KeyError.absolutePath
  else if containsSub [Char.ofNat 0] fileKey.data then some KeyError.nullByte
  else if ¬ (startsWithList "analytics/".data fileKey.data = true) then some KeyError.badPathPrefix
  else if ¬ (containsSub "user_id=".data fileKey.data = true) then some KeyError.missingUserId
  else none

/-- One attempt of the JavaScript regex `/user_id=([^\x2f]+)/` at the head of
the input: the literal `user_id=` followed by a non-empty greedy run of
non-slash characters (group 1).  An empty run means no match at this
position. -/
def userIdMatchAt : List Char → Option (List Char)
  | 'u' :: 's' :: 'e' :: 'r' :: '_' :: 'i' :: 'd' :: '=' :: l1 =>
    let v := l1.takeWhile (fun c => c != '/')
    if v = [] then none else some v
  | _ => none

/-- The regex engine scans left to right for the first position where
`/user_id=([^\x2f]+)/` matches; a `user_id=` occurrence followed directly by
a slash (empty value) is skipped and the scan continues. -/
def userIdSearch : List Char → Option (List Char)
  | [] => none
  | c :: rest =>
    match userIdMatchAt (c :: rest) with
    | some v => some v
    | none => userIdSearch rest

/-- `extractUserIdFromKey` from src/security.ts: first match of
`/user_id=([^\x2f]+)/` in the key, if any. -/
def extractUserIdFromKey (key : String) : Option String :=
  (userIdSearch key.data).map String.mk

/-- The distinct error messages `validateFileAccess` can return, as tags. -/
inductive AccessError where
  | noUserIdInKey
  | ownershipMismatch (userId fileUserId : String)
deriving DecidableEq, Repr

/-- `validateFileAccess` from src/security.ts: extract the owner id embedded
in the key; deny when it is missing or differs from the authenticated user
id. -/
def validateFileAccess (fileKey userId : String) : Option AccessError :=
  match extractUserIdFromKey fileKey with
  | none => some AccessError.noUserIdInKey
  | some fileUserId =>
    if fileUserId ≠ userId then some (AccessError.ownershipMismatch userId fileUserId)
    else none

/-- `isOriginAllowed` from src/cors.ts: the body is literally `return true`
(both the variant at src/cors.ts line 57 and the duplicate in the
`part_001` source), although its own doc comment announces an
`AUTHORIZED_ORIGINS` allow-list that rejects when no origins are
configured. -/
def isOriginAllowed (origin : Option String) (authorizedOrigins : Option String) : Bool :=
  true

/-- `getCorsHeaders` from the `part_001` cors source: unconditionally emits
the wildcard `Access-Control-Allow-Origin` header, ignoring both
arguments. -/
def getCorsHeaders (origin : Option String) (authorizedOrigins : Option String) :
    List (String × String) :=
  [("Access-Control-Allow-Origin", "*"),
   ("Access-Control-Allow-Methods", "GET, HEAD, OPTIONS"),
   ("Access-Control-Allow-Headers", "Range, Authorization"),
   ("Access-Control-Expose-Headers",
    "Content-Length, Content-Range, Accept-Ranges, ETag, Last-Modified")]

/-- Model of `Headers.set`: replace the value of an existing header of that
name, else append it. -/
def setHeader (hs : List (String × String)) (name value : String) : List (String × String) :=
  if hs.any (fun p => p.1 = name) then
    hs.map (fun p => if p.1 = name then (name, value) else p)
  else hs ++ [(name, value)]

/-- `addCorsHeaders` from src/cors.ts: set every CORS header on an existing
header list. -/
def addCorsHeaders (hs : List (String × String)) (origin authorizedOrigins : Option String) :
    List (String × String) :=
  (getCorsHeaders origin authorizedOrigins).foldl (fun acc p => setHeader acc p.1 p.2) hs

/-- `CorsContext` from src/response.ts. -/
structure CorsContext where
  origin : Option String
  authorizedOrigins : Option String
deriving DecidableEq, Repr

/-- Model of a platform `Response`: status, presence of a body, headers. -/
structure RespModel where
  status : Nat
  hasBody : Bool
  headers : List (String × String)
deriving DecidableEq, Repr

/-- `createErrorResponse`: JSON error body with CORS headers. -/
def createErrorResponse (message : String) (status : Nat) (cors : CorsContext) : RespModel :=
  { status := status
    hasBody := true
    headers :=
      setHeader (getCorsHeaders cors.origin cors.authorizedOrigins)
        "Content-Type" "application/json" }

/-- `createHealthResponse`: 200 with a JSON body and CORS headers. -/
def createHealthResponse (cors : CorsContext) : RespModel :=
  { status := 200
    hasBody := true
    headers :=
      setHeader (getCorsHeaders cors.origin cors.authorizedOrigins)
        "Content-Type" "application/json" }

/-- `createPreflightResponse` from src/cors.ts: 204, no body, CORS headers
plus `Access-Control-Max-Age`. -/
def createPreflightResponse (origin authorizedOrigins : Option String) : RespModel :=
  { status := 204
    hasBody := false
    headers :=
      getCorsHeaders origin authorizedOrigins ++ [("Access-Control-Max-Age", "86400")] }

/-- Model of an `R2Object` (metadata only, as returned by `bucket.head`). -/
structure R2Object where
  size : Nat
  httpEtag : String
  httpMetadata : List (String × String)
deriving DecidableEq, Repr

/-- Model of an `R2ObjectBody` (as returned by `bucket.get`): metadata, a
body, and — when the get was ranged — a reported `range` property. -/
structure R2ObjectBody where
  size : Nat
  httpEtag : String
  httpMetadata : List (String × String)
  objRange : Option R2Range
deriving DecidableEq, Repr

/-- The header pipeline shared by the GET and HEAD builders: HTTP metadata,
etag, default content type, `Accept-Ranges`, `Cache-Control`, CORS. -/
def baseObjectHeaders (meta : List (String × String)) (etag : String) (cors : CorsContext) :
    List (String × String) :=
  let h1 := setHeader meta "etag" etag
  let h2 :=
    if h1.any (fun p => p.1 = "Content-Type") then h1
    else setHeader h1 "Content-Type" "application/octet-stream"
  let h3 := setHeader h2 "Accept-Ranges" "bytes"
  let h4 :=
    setHeader h3 "Cache-Control"
      ("public, max-age=" ++ toString CACHE_MAX_AGE_SECONDS ++ ", immutable")
  addCorsHeaders h4 cors.origin cors.authorizedOrigins

/-- `buildR2Response` from src/response.ts: body response with status 206
and a `Content-Range` header when a range was requested and the object
carries a `range` property, else status 200. -/
def buildR2Response (object : R2ObjectBody) (range : Option R2Range) (cors : CorsContext) :
    RespModel × Nat :=
  let hs := baseObjectHeaders object.httpMetadata object.httpEtag cors
  if range.isSome && object.objRange.isSome then
    let hs' :=
      match buildContentRangeHeader object.objRange object.size with
      | some cr => setHeader hs "Content-Range" cr
      | none => hs
    ({ status := 206, hasBody := true, headers := hs' }, 206)
  else
    ({ status := 200, hasBody := true, headers := hs }, 200)

/-- `buildHeadResponse` from src/response.ts: metadata-only response, status
200, `Content-Length` from the object size, no body. -/
def buildHeadResponse (object : R2Object) (cors : CorsContext) : RespModel × Nat :=
  let h1 := setHeader object.httpMetadata "etag" object.httpEtag
  let h2 :=
    if h1.any (fun p => p.1 = "Content-Type") then h1
    else setHeader h1 "Content-Type" "application/octet-stream"
  let h3 := setHeader h2 "Content-Length" (toString object.size)
  let h4 := setHeader h3 "Accept-Ranges" "bytes"
  let h5 :=
    setHeader h4 "Cache-Control"
      ("public, max-age=" ++ toString CACHE_MAX_AGE_SECONDS ++ ", immutable")
  ({ status := 200, hasBody := false,
     headers := addCorsHeaders h5 cors.origin cors.authorizedOrigins }, 200)

/-- `buildCachedResponse` from src/response.ts: re-emit a cached response
with fresh CORS headers; for HEAD, drop the body and normalize a cached 206
back to 200. -/
def buildCachedResponse (cached : RespModel) (isHead : Bool) (cors : CorsContext) : RespModel :=
  let hs := addCorsHeaders cached.headers cors.origin cors.authorizedOrigins
  if isHead then
    { status := if cached.status = 206 then 200 else cached.status
      hasBody := false
      headers := hs }
  else
    { status := cached.status, hasBody := cached.hasBody, headers := hs }

/-- Outcome of `authenticateRequest` (src/auth.ts), abstracted as an oracle:
success carries the internal user id; failures carry status 401 or 500 (the
`AuthError.status` type is `401 | 500`). -/
inductive AuthOutcome where
  | success (internalUserId : String)
  | unauthorized
  | serverError
deriving DecidableEq, Repr

/-- The external collaborators and configuration the worker runs against:
the `AUTHORIZED_ORIGINS` env var, `decodeURIComponent`, the identity
provider, the edge cache lookup, and the R2 bucket (head and ranged get). -/
structure WorkerEnv where
  AUTHORIZED_ORIGINS : Option String
  decode : String → String
  authenticate : AuthOutcome
  cacheMatch : CacheKey → Option RespModel
  bucketHead : String → Option R2Object
  bucketGet : String → Option R2Range → Option R2ObjectBody

/-- An inbound request: method, parsed URL, and the `Origin` and `Range`
headers. -/
structure ReqModel where
  method : String
  url : URLModel
  origin : Option String
  rangeHeader : Option String
deriving DecidableEq, Repr

/-- What one request produced: the response plus the interaction trace with
the external cache and storage (which keys were looked up, which storage
keys were fetched, and which cache writes were dispatched, recorded with the
stored response status). -/
structure FetchResult where
  response : RespModel
  cacheLookups : List CacheKey
  storageCalls : List String
  cacheStores : List (CacheKey × Nat)
deriving Repr

/-- The `fetch` handler of the second `export default` in src/index.ts:
CORS preflight, health check, `/file/` routing, file-key validation,
authentication, authorization, range validation (GET only), cache lookup,
R2 fetch (head for HEAD requests, ranged get for GET), response assembly,
and the conditional cache store. -/
def fetchModel (env : WorkerEnv) (req : ReqModel) : FetchResult :=
  let cors : CorsContext := { origin := req.origin, authorizedOrigins := env.AUTHORIZED_ORIGINS }
  if req.method = "OPTIONS" then
    { response := createPreflightResponse req.origin env.AUTHORIZED_ORIGINS
      cacheLookups := [], storageCalls := [], cacheStores := [] }
  else if req.url.pathname = "/health" then
    { response := createHealthResponse cors
      cacheLookups := [], storageCalls := [], cacheStores := [] }
  else if startsWithList "/file/".data req.url.pathname.data then
    let fileKey := env.decode (String.mk (req.url.pathname.data.drop 6))
    match validateFileKey fileKey with
    | some _ =>
      { response := createErrorResponse "Forbidden - Invalid file path" 403 cors
        cacheLookups := [], storageCalls := [], cacheStores := [] }
    | none =>
      match env.authenticate with
      | AuthOutcome.unauthorized =>
        { response := createErrorResponse "Unauthorized" 401 cors
          cacheLookups := [], storageCalls := [], cacheStores := [] }
      | AuthOutcome.serverError =>
        { response := createErrorResponse "Internal server error" 500 cors
          cacheLookups := [], storageCalls := [], cacheStores := [] }
      | AuthOutcome.success internalUserId =>
        match validateFileAccess fileKey internalUserId with
        | some _ =>
          { response := createErrorResponse "Forbidden - Access denied" 403 cors
            cacheLookups := [], storageCalls := [], cacheStores := [] }
        | none =>
          let isHead : Bool := req.method == "HEAD"
          let parsed : ParsedRange :=
            if isHead then { range := none, error := none }
            else parseRangeHeader req.rangeHeader
          match parsed.error with
          | some _ =>
            { response := createErrorResponse "Bad Request" 400 cors
              cacheLookups := [], storageCalls := [], cacheStores := [] }
          | none =>
            let cacheKey := buildCacheKey req.url internalUserId req.rangeHeader
            match env.cacheMatch cacheKey with
            | some cached =>
              { response := buildCachedResponse cached isHead cors
                cacheLookups := [cacheKey], storageCalls := [], cacheStores := [] }
            | none =>
              if isHead then
                match env.bucketHead fileKey with
                | none =>
                  { response := createErrorResponse "Not found" 404 cors
                    cacheLookups := [cacheKey], storageCalls := [fileKey], cacheStores := [] }
                | some object =>
                  let rs := buildHeadResponse object cors
                  { response := rs.1
                    cacheLookups := [cacheKey], storageCalls := [fileKey]
                    cacheStores := [(cacheKey, rs.1.status)] }
              else
                match env.bucketGet fileKey parsed.range with
                | none =>
                  { response := createErrorResponse "Not found" 404 cors
                    cacheLookups := [cacheKey], storageCalls := [fileKey], cacheStores := [] }
                | some object =>
                  let rs := buildR2Response object parsed.range cors
                  { response := rs.1
                    cacheLookups := [cacheKey], storageCalls := [fileKey]
                    cacheStores :=
                      if rs.2 = 200 ∨ rs.2 = 206 then [(cacheKey, rs.1.status)] else [] }
  else
    { response := createErrorResponse "Not found" 404 cors
      cacheLookups := [], storageCalls := [], cacheStores := [] }

/-- The params of two URLs that agree except for the values stored under
`_uid` (spec wording: URLs that differ only in a caller-supplied `_uid`
query parameter). -/
def maskUidParams (ps : List (String × String)) : List (String × String) :=
  ps.map (fun p => if p.1 = "_uid" then (p.1, ("" : String)) else p)

/-- The `bytes=<start>-<end>` grammar of the spec, read as an exact match of
the whole header text: the literal `bytes=`, a (possibly empty) run of
digits, a hyphen, and a (possibly empty) run of digits reaching the end of
the string.  Stated from the claim wording, to compare with what
`parseRangeHeader` actually does. -/
def matchesRangeGrammar (s : String) : Bool :=
  match s.data with
  | 'b' :: 'y' :: 't' :: 'e' :: 's' :: '=' :: rest =>
    match rest.dropWhile Char.isDigit with
    | c :: tl => c == '-' && tl.all Char.isDigit
    | [] => false
  | _ => false

/-- From the claim wording: the value attached to the first `user_id=`
occurrence in the key — the run of non-slash characters following it, which
may be empty.  Stated to compare with what `extractUserIdFromKey` actually
does. -/
def firstUserIdSegmentValue : List Char → Option (List Char)
  | [] => none
  | c :: rest =>
    if startsWithList "user_id=".data (c :: rest) then
      some (((c :: rest).drop 8).takeWhile (fun x => x != '/'))
    else firstUserIdSegmentValue rest

/-! ## Lemmas and claim theorems -/

theorem startsWithList_iff (p l : List Char) :
    startsWithList p l = true ↔ ∃ t, l = p ++ t := by
  induction p generalizing l with
  | nil => simp [startsWithList]
  | cons a ps ih =>
    cases l with
    | nil => simp [startsWithList]
    | cons c cs =>
      simp only [startsWithList, Bool.and_eq_true, beq_iff_eq, ih]
      constructor
      · rintro ⟨rfl, t, rfl⟩
        exact ⟨t, rfl⟩
      · rintro ⟨t, ht⟩
        injection ht with h1 h2
        exact ⟨h1.symm, t, h2⟩

theorem containsSub_iff (p l : List Char) :
    containsSub p l = true ↔ ∃ a b, l = a ++ (p ++ b) := by
  induction l with
  | nil =>
    simp only [containsSub, startsWithList_iff]
    constructor
    · rintro ⟨t, ht⟩
      exact ⟨[], t, ht⟩
    · rintro ⟨a, b, hab⟩
      cases a with
      | nil => exact ⟨b, hab⟩
      | cons a0 as => simp at hab
  | cons c cs ih =>
    simp only [containsSub, Bool.or_eq_true, startsWithList_iff, ih]
    constructor
    · rintro (⟨t, ht⟩ | ⟨a, b, hab⟩)
      · exact ⟨[], t, by simpa using ht⟩
      · exact ⟨c :: a, b, by simp [hab]⟩
    · rintro ⟨a, b, hab⟩
      cases a with
      | nil => exact Or.inl ⟨b, by simpa using hab⟩
      | cons a0 as =>
        injection hab with h1 h2
        exact Or.inr ⟨as, b, h2⟩

theorem jsTrim_ne_nil_of_mem {l : List Char} {c : Char}
    (hc : c ∈ l) (hns : isJsSpace c = false) : jsTrim l ≠ [] := by
  intro h
  unfold jsTrim at h
  rw [List.reverse_eq_nil_iff, List.dropWhile_eq_nil_iff] at h
  have hc' : c ∈ l.dropWhile isJsSpace := by
    have hsplit := List.takeWhile_append_dropWhile (p := isJsSpace) (l := l)
    rw [← hsplit] at hc
    rcases List.mem_append.mp hc with h1 | h2
    · exact absurd (List.mem_takeWhile_imp h1) (by simp [hns])
    · exact h2
  have := h c (List.mem_reverse.mpr hc')
  rw [hns] at this
  exact Bool.false_ne_true this

theorem getParam_setParam (ps : List (String × String)) (n v : String) :
    getParam (setParam ps n v) n = some v := by
  induction ps with
  | nil => simp [setParam, getParam]
  | cons p rest ih =>
    obtain ⟨k, w⟩ := p
    by_cases hk : k = n
    · simp [setParam, hk, getParam]
    · simp [setParam, hk, getParam, ih]

theorem removeParam_congr_of_mask :
    ∀ ps1 ps2 : List (String × String), maskUidParams ps1 = maskUidParams ps2 →
      removeParam ps1 "_uid" = removeParam ps2 "_uid" := by
  intro ps1
  induction ps1 with
  | nil =>
    intro ps2 h
    cases ps2 with
    | nil => rfl
    | cons q t2 => simp [maskUidParams] at h
  | cons p t1 ih =>
    intro ps2 h
    cases ps2 with
    | nil => simp [maskUidParams] at h
    | cons q t2 =>
      obtain ⟨k1, w1⟩ := p
      obtain ⟨k2, w2⟩ := q
      simp only [maskUidParams, List.map_cons, List.cons.injEq] at h
      obtain ⟨hhead, htail⟩ := h
      by_cases h1 : k1 = "_uid" <;> by_cases h2 : k2 = "_uid"
      · subst h1; subst h2
        simp only [removeParam, if_pos]
        exact ih t2 htail
      · subst h1
        simp [h2] at hhead
        exact absurd hhead.1.symm h2
      · subst h2
        simp [h1] at hhead
      · simp [h1, h2] at hhead
        obtain ⟨hk, hw⟩ := hhead
        simp only [removeParam, if_neg h1, if_neg h2]
        rw [hk, hw, ih t2 htail]

theorem setParam_congr_of_mask :
    ∀ ps1 ps2 : List (String × String), maskUidParams ps1 = maskUidParams ps2 →
      ∀ v : String, setParam ps1 "_uid" v = setParam ps2 "_uid" v := by
  intro ps1
  induction ps1 with
  | nil =>
    intro ps2 h v
    cases ps2 with
    | nil => rfl
    | cons q t2 => simp [maskUidParams] at h
  | cons p t1 ih =>
    intro ps2 h v
    cases ps2 with
    | nil => simp [maskUidParams] at h
    | cons q t2 =>
      obtain ⟨k1, w1⟩ := p
      obtain ⟨k2, w2⟩ := q
      simp only [maskUidParams, List.map_cons, List.cons.injEq] at h
      obtain ⟨hhead, htail⟩ := h
      by_cases h1 : k1 = "_uid" <;> by_cases h2 : k2 = "_uid"
      · subst h1; subst h2
        simp only [setParam, if_pos]
        rw [removeParam_congr_of_mask t1 t2 htail]
      · subst h1
        simp [h2] at hhead
        exact absurd hhead.1.symm h2
      · subst h2
        simp [h1] at hhead
      · simp [h1, h2] at hhead
        obtain ⟨hk, hw⟩ := hhead
        simp only [setParam, if_neg h1, if_neg h2]
        rw [hk, hw, ih t2 htail v]

/-- C1: the claim states that with an empty or unset authorized-origins
configuration every CORS decision denies and no wildcard is emitted; the
code does the opposite at that very input — `isOriginAllowed` returns `true`
and the emitted headers carry `Access-Control-Allow-Origin: *` — although
the source file documents itself as rejecting when no origins are configured
(secure by default). -/
theorem cors_wildcard_despite_empty_allowlist :
    isOriginAllowed (some "https://evil.example") none = true ∧
    ("Access-Control-Allow-Origin", "*") ∈ getCorsHeaders (some "https://evil.example") none := by
  exact ⟨rfl, by decide⟩

/-- C2: for every resource URL and every raw range header, two distinct
tenant identities derive unequal cache keys, because `buildCacheKey` stores
the server-side user id under the reserved `_uid` query parameter. -/
theorem buildCacheKey_tenant_separation (url : URLModel) (range : Option String)
    (u1 u2 : String) (h : u1 ≠ u2) :
    buildCacheKey url u1 range ≠ buildCacheKey url u2 range := by
  intro heq
  apply h
  have hparams : setParam url.params "_uid" u1 = setParam url.params "_uid" u2 := by
    have := congrArg (fun k => k.url.params) heq
    simpa [buildCacheKey] using this
  have h1 := getParam_setParam url.params "_uid" u1
  have h2 := getParam_setParam url.params "_uid" u2
  rw [hparams, h2] at h1
  exact (Option.some.injEq .. ▸ h1).symm

/-- C2 witness: two concrete tenants, same URL and range, distinct keys. -/
theorem buildCacheKey_tenant_separation_witness :
    buildCacheKey
        { host := "https://proxy.example.com", pathname := "/file/analytics/archive/user_id=u1/data.parquet", params := [] }
        "u1" (some "bytes=0-99") ≠
      buildCacheKey
        { host := "https://proxy.example.com", pathname := "/file/analytics/archive/user_id=u1/data.parquet", params := [] }
        "u2" (some "bytes=0-99") :=
  buildCacheKey_tenant_separation _ (some "bytes=0-99") "u1" "u2" (by decide)

/-- C3: the `_uid` query parameter of every derived cache key equals the
server-side tenant id, and two request URLs that agree except for the values
their `_uid` parameters carry derive identical cache keys — the untrusted
caller cannot influence the tenant discriminator. -/
theorem buildCacheKey_uid_is_server_side :
    (∀ (url : URLModel) (userId : String) (range : Option String),
        getParam (buildCacheKey url userId range).url.params "_uid" = some userId) ∧
    (∀ (url1 url2 : URLModel) (userId : String) (range : Option String),
        url1.host = url2.host → url1.pathname = url2.pathname →
        maskUidParams url1.params = maskUidParams url2.params →
        buildCacheKey url1 userId range = buildCacheKey url2 userId range) := by
  constructor
  · intro url userId range
    simpa [buildCacheKey] using getParam_setParam url.params "_uid" userId
  · intro url1 url2 userId range hh hp hm
    have hs := setParam_congr_of_mask url1.params url2.params hm userId
    simp [buildCacheKey, URLModel.mk.injEq, CacheKey.mk.injEq, hh, hp, hs]

/-- C3 witness: a caller-supplied `_uid=evil` versus `_uid=zzz` in the
request URL yields the same key once the server-side id is injected. -/
theorem buildCacheKey_uid_is_server_side_witness :
    buildCacheKey
        { host := "https://proxy.example.com", pathname := "/file/analytics/archive/user_id=alice/data.parquet", params := [("a", "1"), ("_uid", "evil")] }
        "alice" none =
      buildCacheKey
        { host := "https://proxy.example.com", pathname := "/file/analytics/archive/user_id=alice/data.parquet", params := [("a", "1"), ("_uid", "zzz")] }
        "alice" none :=
  buildCacheKey_uid_is_server_side.2 _ _ "alice" none rfl rfl (by decide)

/-- C4: for one tenant and one URL, two distinct present raw Range header
texts derive unequal cache keys (a present-but-empty header text is falsy in
JavaScript and sets no header, but it still differs from every non-empty
text, whose literal is embedded in the key's header set). -/
theorem buildCacheKey_range_separation (url : URLModel) (userId : String)
    (r1 r2 : String) (h : r1 ≠ r2) :
    buildCacheKey url userId (some r1) ≠ buildCacheKey url userId (some r2) := by
  intro heq
  have hr : (if r1 = "" then (none : Option String) else some r1) =
      (if r2 = "" then (none : Option String) else some r2) := by
    have := congrArg (fun k => k.rangeHeader) heq
    simpa [buildCacheKey] using this
  by_cases h1 : r1 = "" <;> by_cases h2 : r2 = ""
  · exact h (h1.trans h2.symm)
  · rw [if_pos h1, if_neg h2] at hr
    exact Option.noConfusion hr
  · rw [if_neg h1, if_pos h2] at hr
    exact Option.noConfusion hr
  · rw [if_neg h1, if_neg h2] at hr
    exact h (Option.some.injEq .. ▸ hr)

/-- C4 witness: `bytes=0-99` and `bytes=100-199` key differently for the
same tenant and resource. -/
theorem buildCacheKey_range_separation_witness :
    buildCacheKey
        { host := "https://proxy.example.com", pathname := "/file/analytics/archive/user_id=u1/data.parquet", params := [] }
        "u1" (some "bytes=0-99") ≠
      buildCacheKey
        { host := "https://proxy.example.com", pathname := "/file/analytics/archive/user_id=u1/data.parquet", params := [] }
        "u1" (some "bytes=100-199") :=
  buildCacheKey_range_separation _ "u1" "bytes=0-99" "bytes=100-199" (by decide)

theorem bytesMatchAt_digits (d1 d2 : List Char)
    (hd1 : ∀ c ∈ d1, c.isDigit = true) (hd2 : ∀ c ∈ d2, c.isDigit = true) :
    bytesMatchAt ('b' :: 'y' :: 't' :: 'e' :: 's' :: '=' :: (d1 ++ '-' :: d2)) =
      some (d1, d2) := by
  have h1 : (d1 ++ '-' :: d2).takeWhile Char.isDigit = d1 := by
    rw [List.takeWhile_append_of_pos hd1,
      List.takeWhile_cons_of_neg (p := Char.isDigit) (by decide), List.append_nil]
  have h2 : (d1 ++ '-' :: d2).dropWhile Char.isDigit = '-' :: d2 := by
    rw [List.dropWhile_append_of_pos hd1,
      List.dropWhile_cons_of_neg (p := Char.isDigit) (by decide)]
  have h3 : d2.takeWhile Char.isDigit = d2 := List.takeWhile_eq_self_iff.mpr hd2
  simp [bytesMatchAt, h1, h2, h3]

theorem bytesSearch_digits (d1 d2 : List Char)
    (hd1 : ∀ c ∈ d1, c.isDigit = true) (hd2 : ∀ c ∈ d2, c.isDigit = true) :
    bytesSearch ('b' :: 'y' :: 't' :: 'e' :: 's' :: '=' :: (d1 ++ '-' :: d2)) =
      some (d1, d2) := by
  simp only [bytesSearch, bytesMatchAt_digits d1 d2 hd1 hd2]

theorem expGo_of_lt {m e fuel : Nat} (h : m < 2 ^ 53) : expGo m e (fuel + 1) = e := by
  simp only [expGo]
  rw [if_pos h]

theorem roundDouble_of_le {n : Nat} (h : n ≤ 2 ^ 53) : roundDouble n = n := by
  rcases Nat.lt_or_ge n (2 ^ 53) with hlt | hge
  · unfold roundDouble
    rw [show (2048 : Nat) = 2047 + 1 from rfl, expGo_of_lt hlt]
    have hm : n % 1 = 0 := Nat.mod_one n
    have hd : n / 1 = n := Nat.div_one n
    simp [hm, hd]
  · have hn : n = 2 ^ 53 := Nat.le_antisymm h hge
    subst hn
    decide

theorem intRoundDouble_of_le {i : Int} (h : i.natAbs ≤ 2 ^ 53) : intRoundDouble i = i := by
  unfold intRoundDouble
  rw [roundDouble_of_le h]
  split <;> omega

theorem jsParseInt_exact {l : List Char} (h : parseDigits l ≤ 2 ^ 53) :
    jsParseInt l = parseDigits l :=
  roundDouble_of_le h

/-- C5 counterexample: the header `bytes=9007199254740993-9007199254740992`
has `b < a` in exact arithmetic, so the claim demands the end-before-start
validation error and no range; but `parseInt` returns IEEE-754 doubles and
rounds `9007199254740993` (just above `2 ^ 53`) down to `9007199254740992`,
so the code computes `length = 1` and returns a bounded one-byte range with
no error. -/
theorem parseRangeHeader_bounded_counterexample :
    parseDigits "9007199254740992".data < parseDigits "9007199254740993".data ∧
    parseRangeHeader (some "bytes=9007199254740993-9007199254740992") =
      { range := some (R2Range.bounded 9007199254740992 1), error := none } := by
  exact ⟨by decide, by decide⟩

/-- C5 (amended): for every Range header of the shape `bytes=a-b` (both
sides non-empty digit strings) whose bounds are at most
`Number.MAX_SAFE_INTEGER` (`2 ^ 53 - 1`), where `parseInt` and the
`end - start + 1` double arithmetic are exact: if `b < a` the parser reports
the end-before-start validation error; else if `b - a + 1` exceeds
`MAX_RANGE_SIZE_BYTES` it reports the range-too-large validation error; else
it produces the bounded range with offset `a` and length `b - a + 1`, with
no error.  Above `2 ^ 53` the parsed bounds are rounded, so exact
`b < a` no longer guarantees an error. -/
theorem parseRangeHeader_bounded_spec (d1 d2 : List Char)
    (hne1 : d1 ≠ []) (hne2 : d2 ≠ [])
    (hd1 : ∀ c ∈ d1, c.isDigit = true) (hd2 : ∀ c ∈ d2, c.isDigit = true)
    (hs1 : parseDigits d1 ≤ 2 ^ 53 - 1) (hs2 : parseDigits d2 ≤ 2 ^ 53 - 1) :
    parseRangeHeader
        (some (String.mk ('b' :: 'y' :: 't' :: 'e' :: 's' :: '=' :: (d1 ++ '-' :: d2)))) =
      if parseDigits d2 < parseDigits d1 then
        { range := none, error := some RangeError.endBeforeStart }
      else if MAX_RANGE_SIZE_BYTES < parseDigits d2 - parseDigits d1 + 1 then
        { range := none
          error := some (RangeError.rangeTooLarge
            ((parseDigits d2 : Int) - (parseDigits d1 : Int) + 1)) }
      else
        { range := some (R2Range.bounded (parseDigits d1)
            (parseDigits d2 - parseDigits d1 + 1))
          error := none } := by
  have hdata :
      (String.mk ('b' :: 'y' :: 't' :: 'e' :: 's' :: '=' :: (d1 ++ '-' :: d2))).data =
        'b' :: 'y' :: 't' :: 'e' :: 's' :: '=' :: (d1 ++ '-' :: d2) := rfl
  simp only [parseRangeHeader, hdata, bytesSearch_digits d1 d2 hd1 hd2,
    List.cons_ne_nil, if_false, if_neg hne1, if_neg hne2,
    jsParseInt_exact (by omega : parseDigits d1 ≤ 2 ^ 53),
    jsParseInt_exact (by omega : parseDigits d2 ≤ 2 ^ 53)]
  set a := parseDigits d1 with ha
  set b := parseDigits d2 with hb
  rw [intRoundDouble_of_le (by omega : ((b : Int) - (a : Int)).natAbs ≤ 2 ^ 53),
    intRoundDouble_of_le (by omega : ((b : Int) - (a : Int) + 1).natAbs ≤ 2 ^ 53)]
  have hneg : ¬((a : Int) < 0) := by omega
  rw [if_neg (by simp only [decide_eq_true_eq]; exact hneg)]
  by_cases hlt : b < a
  · rw [if_pos (by omega : (b : Int) - (a : Int) + 1 ≤ 0), if_pos hlt]
  · rw [if_neg (by omega : ¬((b : Int) - (a : Int) + 1 ≤ 0)), if_neg hlt]
    by_cases hbig : MAX_RANGE_SIZE_BYTES < b - a + 1
    · rw [if_pos (by omega : (MAX_RANGE_SIZE_BYTES : Int) < (b : Int) - (a : Int) + 1),
        if_pos hbig]
    · rw [if_neg (by omega : ¬((MAX_RANGE_SIZE_BYTES : Int) < (b : Int) - (a : Int) + 1)),
        if_neg hbig]
      have : ((b : Int) - (a : Int) + 1).toNat = b - a + 1 := by omega
      rw [this]

/-- C5 witness: `bytes=0-99` parses to the bounded range with offset 0 and
length 100 and no error. -/
theorem parseRangeHeader_bounded_spec_witness :
    parseRangeHeader
        (some (String.mk ('b' :: 'y' :: 't' :: 'e' :: 's' :: '=' :: (['0'] ++ '-' :: ['9', '9'])))) =
      { range := some (R2Range.bounded 0 100), error := none } := by
  rw [parseRangeHeader_bounded_spec ['0'] ['9', '9']
    (by decide) (by decide) (by decide) (by decide) (by decide) (by decide)]
  decide

/-- C6 counterexample: the header `bytes=5-2x` does not match the
`bytes=<start>-<end>` grammar, yet `parseRangeHeader` does not treat it as
absent — the unanchored regex finds `bytes=5-2` inside it and returns the
end-before-start validation error. -/
theorem parseRangeHeader_malformed_counterexample :
    matchesRangeGrammar "bytes=5-2x" = false ∧
    parseRangeHeader (some "bytes=5-2x") =
      { range := none, error := some RangeError.endBeforeStart } := by
  exact ⟨by decide, by decide⟩

/-- C6 (amended): every present header in which the regex search for
`bytes=(\d*)-(\d*)` finds no match anywhere is treated as an absent range —
no range and no error; headers that merely contain the pattern somewhere may
still be parsed or rejected by the embedded bounds. -/
theorem parseRangeHeader_no_match_is_absent (s : String)
    (h : bytesSearch s.data = none) :
    parseRangeHeader (some s) = { range := none, error := none } := by
  simp only [parseRangeHeader]
  by_cases he : s.data = []
  · rw [if_pos he]
  · rw [if_neg he, h]

/-- C6 witness: `units=0-5` contains no `bytes=` pattern and is silently
ignored. -/
theorem parseRangeHeader_no_match_is_absent_witness :
    parseRangeHeader (some "units=0-5") = { range := none, error := none } :=
  parseRangeHeader_no_match_is_absent "units=0-5" (by decide)

theorem buildHeadResponse_status (object : R2Object) (cors : CorsContext) :
    (buildHeadResponse object cors).1.status = 200 := by
  simp [buildHeadResponse]

theorem buildHeadResponse_hasBody (object : R2Object) (cors : CorsContext) :
    (buildHeadResponse object cors).1.hasBody = false := by
  simp [buildHeadResponse]

theorem buildR2Response_status_eq (object : R2ObjectBody) (range : Option R2Range)
    (cors : CorsContext) :
    (buildR2Response object range cors).1.status = (buildR2Response object range cors).2 := by
  unfold buildR2Response
  split <;> rfl

theorem buildR2Response_status_ok (object : R2ObjectBody) (range : Option R2Range)
    (cors : CorsContext) :
    (buildR2Response object range cors).2 = 200 ∨ (buildR2Response object range cors).2 = 206 := by
  unfold buildR2Response
  split
  · exact Or.inr rfl
  · exact Or.inl rfl

theorem fetchResult_response (r : RespModel) (a : List CacheKey) (b : List String)
    (c : List (CacheKey × Nat)) : (FetchResult.mk r a b c).response = r := rfl

theorem fetchResult_cacheLookups (r : RespModel) (a : List CacheKey) (b : List String)
    (c : List (CacheKey × Nat)) : (FetchResult.mk r a b c).cacheLookups = a := rfl

theorem fetchResult_storageCalls (r : RespModel) (a : List CacheKey) (b : List String)
    (c : List (CacheKey × Nat)) : (FetchResult.mk r a b c).storageCalls = b := rfl

theorem fetchResult_cacheStores (r : RespModel) (a : List CacheKey) (b : List String)
    (c : List (CacheKey × Nat)) : (FetchResult.mk r a b c).cacheStores = c := rfl

theorem createErrorResponse_status (message : String) (status : Nat) (cors : CorsContext) :
    (createErrorResponse message status cors).status = status := rfl

theorem pathname_ne_health {p : String}
    (hp : startsWithList "/file/".data p.data = true) : p ≠ "/health" := by
  intro e
  rw [e] at hp
  exact absurd hp (by decide)

/-- C7: a HEAD request to `/file/...` never yields a 206 response and its
200 responses carry no body: `buildCachedResponse` with `isHead` normalizes
a cached 206 to a bodiless 200, `buildHeadResponse` always returns a
bodiless 200, and the orchestrator produces no 206 and no 200-with-body for
any HEAD request under `/file/`. -/
theorem head_never_206_never_body :
    (∀ (cached : RespModel) (cors : CorsContext),
        (buildCachedResponse cached true cors).status ≠ 206 ∧
        (buildCachedResponse cached true cors).hasBody = false) ∧
    (∀ (object : R2Object) (cors : CorsContext),
        (buildHeadResponse object cors).1.status = 200 ∧
        (buildHeadResponse object cors).1.hasBody = false) ∧
    (∀ (env : WorkerEnv) (req : ReqModel),
        req.method = "HEAD" →
        startsWithList "/file/".data req.url.pathname.data = true →
        (fetchModel env req).response.status ≠ 206 ∧
        ((fetchModel env req).response.status = 200 →
          (fetchModel env req).response.hasBody = false)) := by
  have hcached : ∀ (cached : RespModel) (cors : CorsContext),
      (buildCachedResponse cached true cors).status ≠ 206 ∧
      (buildCachedResponse cached true cors).hasBody = false := by
    intro cached cors
    by_cases h : cached.status = 206 <;> simp [buildCachedResponse, h]
  refine ⟨hcached, fun object cors => ⟨buildHeadResponse_status object cors,
    buildHeadResponse_hasBody object cors⟩, ?_⟩
  intro env req hm hp
  have hph := pathname_ne_health hp
  simp only [fetchModel, hm]
  rw [if_neg (by decide : ¬("HEAD" : String) = "OPTIONS"), if_neg hph, if_pos hp]
  split
  · simp only [fetchResult_response, createErrorResponse_status]
    exact ⟨by decide, fun h => absurd h (by decide)⟩
  split
  · simp only [fetchResult_response, createErrorResponse_status]
    exact ⟨by decide, fun h => absurd h (by decide)⟩
  · simp only [fetchResult_response, createErrorResponse_status]
    exact ⟨by decide, fun h => absurd h (by decide)⟩
  split
  · simp only [fetchResult_response, createErrorResponse_status]
    exact ⟨by decide, fun h => absurd h (by decide)⟩
  simp only [show (("HEAD" : String) == "HEAD") = true from by decide, if_true,
    eq_self_iff_true, fetchResult_response]
  split
  · simp only [fetchResult_response]
    exact ⟨(hcached _ _).1, fun _ => (hcached _ _).2⟩
  split
  · simp only [fetchResult_response, createErrorResponse_status]
    exact ⟨by decide, fun h => absurd h (by decide)⟩
  · refine ⟨?_, fun _ => ?_⟩
    · rw [buildHeadResponse_status]
      decide
    · exact buildHeadResponse_hasBody _ _

/-- C7 witness: a concrete HEAD request served from R2 head metadata. -/
theorem head_never_206_never_body_witness :
    (fetchModel
        { AUTHORIZED_ORIGINS := none
          decode := id
          authenticate := AuthOutcome.success "alice"
          cacheMatch := fun _ => none
          bucketHead := fun _ => some { size := 1234, httpEtag := "etag1", httpMetadata := [] }
          bucketGet := fun _ _ => none }
        { method := "HEAD"
          url := { host := "https://proxy.example.com"
                   pathname := "/file/analytics/archive/user_id=alice/data.parquet"
                   params := [] }
          origin := none
          rangeHeader := none }).response.status ≠ 206 :=
  (head_never_206_never_body.2.2 _ _ rfl (by decide)).1

/-- C8: any file key containing a `..` segment is rejected by
`validateFileKey` with the path-traversal error, the orchestrator answers
403, and the request trace shows no cache lookup, no storage fetch and no
cache store. -/
theorem traversal_rejected_before_storage (env : WorkerEnv) (req : ReqModel)
    (hm : req.method ≠ "OPTIONS")
    (hp : startsWithList "/file/".data req.url.pathname.data = true)
    (hk : containsSub "..".data
      (env.decode (String.mk (req.url.pathname.data.drop 6))).data = true) :
    validateFileKey (env.decode (String.mk (req.url.pathname.data.drop 6))) =
      some KeyError.pathTraversalDots ∧
    (fetchModel env req).response.status = 403 ∧
    (fetchModel env req).cacheLookups = [] ∧
    (fetchModel env req).storageCalls = [] ∧
    (fetchModel env req).cacheStores = [] := by
  have hph := pathname_ne_health hp
  have hdot : '.' ∈ (env.decode (String.mk (req.url.pathname.data.drop 6))).data := by
    obtain ⟨a, b, hab⟩ := (containsSub_iff _ _).mp hk
    rw [hab]
    simp
  have hvk : validateFileKey (env.decode (String.mk (req.url.pathname.data.drop 6))) =
      some KeyError.pathTraversalDots := by
    have hne : (env.decode (String.mk (req.url.pathname.data.drop 6))).data ≠ [] := by
      intro h0
      rw [h0] at hdot
      exact absurd hdot (by simp)
    have htrim := jsTrim_ne_nil_of_mem hdot (by decide)
    unfold validateFileKey
    rw [if_neg (by push_neg; exact ⟨hne, htrim⟩), if_pos hk]
  refine ⟨hvk, ?_⟩
  simp only [fetchModel]
  rw [if_neg hm, if_neg hph, if_pos hp, hvk]
  exact ⟨rfl, rfl, rfl, rfl⟩

/-- C8 witness: the key `../../etc/passwd` is refused with 403 and an empty
interaction trace. -/
theorem traversal_rejected_before_storage_witness :
    (fetchModel
        { AUTHORIZED_ORIGINS := none
          decode := id
          authenticate := AuthOutcome.success "alice"
          cacheMatch := fun _ => none
          bucketHead := fun _ => some { size := 1234, httpEtag := "etag1", httpMetadata := [] }
          bucketGet := fun _ _ => none }
        { method := "GET"
          url := { host := "https://proxy.example.com"
                   pathname := "/file/../../etc/passwd"
                   params := [] }
          origin := none
          rangeHeader := none }).response.status = 403 :=
  (traversal_rejected_before_storage _ _ (by decide) (by decide) (by decide)).2.1

/-- C9: cache stores happen only for success statuses.  Every dispatched
cache write stores a response whose status is 200 or 206, and whenever the
outgoing response status is neither 200 nor 206 (every error outcome —
400, 401, 403, 404, 5xx) no cache store is dispatched at all. -/
theorem no_error_path_writes_cache (env : WorkerEnv) (req : ReqModel) :
    ((fetchModel env req).cacheStores.all (fun p => p.2 == 200 || p.2 == 206)) = true ∧
    (¬ ((fetchModel env req).response.status = 200 ∨
        (fetchModel env req).response.status = 206) →
      (fetchModel env req).cacheStores = []) := by
  simp only [fetchModel]
  split
  · exact ⟨rfl, fun _ => rfl⟩
  split
  · exact ⟨rfl, fun _ => rfl⟩
  split
  · split
    · exact ⟨rfl, fun _ => rfl⟩
    split
    · exact ⟨rfl, fun _ => rfl⟩
    · exact ⟨rfl, fun _ => rfl⟩
    split
    · exact ⟨rfl, fun _ => rfl⟩
    split
    · exact ⟨rfl, fun _ => rfl⟩
    split
    · exact ⟨rfl, fun _ => rfl⟩
    split
    · split
      · exact ⟨rfl, fun _ => rfl⟩
      · simp only [fetchResult_cacheStores, fetchResult_response]
        constructor
        · simp [buildHeadResponse_status]
        · intro h
          exact absurd (Or.inl (buildHeadResponse_status _ _)) h
    · split
      · exact ⟨rfl, fun _ => rfl⟩
      · simp only [fetchResult_cacheStores, fetchResult_response]
        split
        · rename_i hok
          constructor
          · simp only [List.all_cons, List.all_nil, Bool.and_true,
              buildR2Response_status_eq]
            rcases hok with h | h <;> simp [h]
          · intro h
            apply absurd _ h
            rw [buildR2Response_status_eq]
            exact hok
        · exact ⟨rfl, fun _ => rfl⟩
  · exact ⟨rfl, fun _ => rfl⟩

/-- C9 witness: a GET whose storage fetch misses yields 404 and an empty
store trace. -/
theorem no_error_path_writes_cache_witness :
    (fetchModel
        { AUTHORIZED_ORIGINS := none
          decode := id
          authenticate := AuthOutcome.success "alice"
          cacheMatch := fun _ => none
          bucketHead := fun _ => none
          bucketGet := fun _ _ => none }
        { method := "GET"
          url := { host := "https://proxy.example.com"
                   pathname := "/file/analytics/archive/user_id=alice/data.parquet"
                   params := [] }
          origin := none
          rangeHeader := none }).cacheStores = [] :=
  (no_error_path_writes_cache _ _).2 (by decide)

/-- C10 counterexample: in the key
`analytics/archive/user_id=/user_id=bob/data.parquet` the first `user_id=`
segment has the empty value, which differs from the tenant id `bob` — the
claim therefore demands denial — yet `validateFileAccess` allows the
request, because the regex skips the empty-valued occurrence and compares
the second one. -/
theorem first_segment_claim_counterexample :
    firstUserIdSegmentValue ("analytics/archive/user_id=/user_id=bob/data.parquet").data =
      some [] ∧
    firstUserIdSegmentValue ("analytics/archive/user_id=/user_id=bob/data.parquet").data ≠
      some "bob".data ∧
    validateFileAccess "analytics/archive/user_id=/user_id=bob/data.parquet" "bob" = none := by
  exact ⟨by decide, by decide, by decide⟩

/-- C10 (amended): `validateFileAccess` allows access iff
`extractUserIdFromKey` — the first `user_id=` occurrence that is followed by
at least one non-slash character, empty-valued occurrences being skipped —
yields exactly the authenticated tenant id; occurrences after the deciding
one have no effect. -/
theorem validateFileAccess_iff_extract (fileKey userId : String) :
    validateFileAccess fileKey userId = none ↔
      extractUserIdFromKey fileKey = some userId := by
  unfold validateFileAccess
  cases h : extractUserIdFromKey fileKey with
  | none => simp
  | some v =>
    by_cases hv : v = userId
    · simp [hv]
    · simp [hv]

/-- C10 amended-claim witness: owner `bob` may read a key owned by `bob`. -/
theorem validateFileAccess_iff_extract_witness :
    validateFileAccess "analytics/archive/user_id=bob/data.parquet" "bob" = none :=
  (validateFileAccess_iff_extract _ _).mpr (by decide)

end FileProxy
